import Mathlib

/-!
# EMS-ESP web API gateway (`src/web/WebAPIService.cpp`)

A shallow embedding of `WebAPIService::webAPIService_get`,
`WebAPIService::webAPIService_post` and `WebAPIService::parse`, and the
properties of the request gateway proved about it.

Conventions of the embedding:

* A C string (`const char *`, `char[]`) is a `String`; one `Char` stands for one
  C `char`, so cutting a buffer after `n` chars is `List.take n` on the data.
* `uint8_t` is a `Nat` reduced modulo `256`.
* A JSON document is its abstract value (an ordered member list for an object);
  the memory pool behind an ArduinoJson document is not represented.
* The calls the gateway makes on its collaborators (settings store, security
  manager, command engine, logger, transport, serial console) are recorded, in
  program order, as a list of `Event`s.
-/

namespace emsesp

/-! ## JSON documents -/

/-- A JSON value as held by an ArduinoJson `JsonVariant`. A floating point
number is kept as its uninterpreted bit pattern: the gateway never looks at it. -/
inductive JsonVariant where
  | null
  | bool (b : Bool)
  | int (v : Int)
  | float (bits : Nat)
  | str (s : String)
  | arr (elements : List JsonVariant)
  | obj (members : List (String × JsonVariant))

/-- A `JsonObject`: the members of an object, in insertion order. -/
abbrev JsonObject := List (String × JsonVariant)

namespace JsonVariant

/-- The test `json.is<JsonObject>()`. -/
def isObject : JsonVariant → Bool
  | obj _ => true
  | _ => false

/-- The view `json.as<JsonObject>()`: the object itself, and the null object (no member)
for a value that is not an object. -/
def asObject : JsonVariant → JsonObject
  | obj members => members
  | _ => []

/-- The cast `(const char *) v`: the text of a string value, the null pointer otherwise. -/
def asCString : JsonVariant → Option String
  | str s => some s
  | _ => none

end JsonVariant

/-- The call `object.size()`: the number of members. -/
def JsonObject.size (o : JsonObject) : Nat := o.length

/-- Reading `object[key]`: the first member under `key`, if any. Reading adds
nothing to the object. -/
def JsonObject.getMember (o : JsonObject) (key : String) : Option JsonVariant :=
  (o.find? (fun m => m.1 == key)).map (fun m => m.2)

/-- The cast `(const char *) object[key]`: null pointer when the member is absent or is
not a string. -/
def JsonObject.getCString (o : JsonObject) (key : String) : Option String :=
  match JsonObject.getMember o key with
  | some v => v.asCString
  | none => none

/-- Writing `object[key] = value`: replaces the value of an existing member,
appends a new member otherwise. -/
def JsonObject.setMember : JsonObject → String → JsonVariant → JsonObject
  | [], key, value => [(key, value)]
  | (k, v) :: rest, key, value =>
    if k == key then (k, value) :: rest else (k, v) :: JsonObject.setMember rest key value

/-! ## Result codes -/

/-- Modelled from the spec: the `CommandRet` enumeration, declared outside this
file. Its five values and their order are the ones listed in the comment above
`ret_codes` in `parse`: FAIL, OK, NOT_FOUND, ERROR, NOT_ALLOWED. -/
inductive CommandRet where
  | FAIL
  | OK
  | NOT_FOUND
  | ERROR
  | NOT_ALLOWED
  deriving DecidableEq, Repr

/-- The ordinal of a `CommandRet` value: FAIL = 0, OK = 1, NOT_FOUND = 2,
ERROR = 3, NOT_ALLOWED = 4. -/
def CommandRet.ordinal : CommandRet → Nat
  | FAIL => 0
  | OK => 1
  | NOT_FOUND => 2
  | ERROR => 3
  | NOT_ALLOWED => 4

/-- The array `int ret_codes[5] = {400, 200, 400, 400, 401}` of `parse`. -/
def ret_codes : List Nat := [400, 200, 400, 400, 401]

/-! ## Requests, responses, collaborators -/

/-- An `AsyncWebServerRequest`, as far as the gateway and its collaborators read
it: the path, the query parameters and the headers (where credentials travel). -/
structure AsyncWebServerRequest where
  url : String
  params : List (String × String)
  headers : List (String × String)

/-- A `PrettyAsyncJsonResponse` as handed to the transport: the status set by
`setCode`, the content type set by `setContentType` and the root object.
`setLength` derives the payload length from the root and adds no information. -/
structure Response where
  code : Nat
  contentType : String
  body : JsonObject

/-- The `WebSettings` fields the gateway reads. -/
structure WebSettings where
  notoken_api : Bool

/-- What `parse` is linked against. `Authentication` is the identity object of
the security manager; the gateway only hands it to `IS_ADMIN`.

* `process path is_admin input output` is `Command::process`: it receives the
  response root `output` and returns the result code with the root as it left it;
* `printfNull` is what the platform `snprintf` writes for a null `%s` argument
  (`(null)` with newlib and glibc; the C standard leaves it undefined);
* `EMSESP_STANDALONE` tells whether that macro is defined in the build;
  `COLOR_YELLOW` and `COLOR_RESET` are the console escapes it then uses. -/
structure Env (Authentication : Type) where
  settings : WebSettings
  authenticateRequest : AsyncWebServerRequest → Authentication
  IS_ADMIN : Authentication → Bool
  process : String → Bool → JsonObject → JsonObject → Nat × JsonObject
  return_code_string : Nat → String
  printfNull : String
  EMSESP_STANDALONE : Bool
  COLOR_YELLOW : String
  COLOR_RESET : String

/-- One call of the gateway on a collaborator. -/
inductive Event where
  /-- Entry of `webSettingsService.read`: the settings are acquired. -/
  | readBegin
  /-- Call of `_securityManager->authenticateRequest(request)`. -/
  | authenticateRequest (request : AsyncWebServerRequest)
  /-- Return of `webSettingsService.read`: the settings are released. -/
  | readEnd
  /-- Call of `Command::process(path, is_admin, input, output)`, `output` being the
  fresh, empty response root. -/
  | process (path : String) (is_admin : Bool) (input : JsonObject)
  /-- Call of `logger().err(text)`; `text` is the argument as `parse` passes it. -/
  | logErr (text : String)
  /-- Call of `logger().debug(text)`. -/
  | logDebug (text : String)
  /-- Call of `request->send(response)`. -/
  | send (response : Response)
  /-- Call of `Serial.print(text)`. -/
  | serialPrint (text : String)
  /-- Call of `Serial.println(n)`. -/
  | serialPrintlnInt (n : Nat)
  /-- Call of `serializeJsonPretty(output, Serial)`. -/
  | serialJsonPretty (output : JsonObject)
  /-- Call of `Serial.println()`. -/
  | serialPrintln

/-- One run of a handler: the collaborator calls in program order, and whether
the run then left defined behaviour (the read `ret_codes[return_code]` with
`return_code` outside the array). -/
structure Run where
  events : List Event
  undefined : Bool

/-! ## The handlers -/

/-- The C++ expression `a | b` on two `bool`s, converted back to `bool`: both are
promoted to `int`, or-ed bitwise, and the result is true when non-zero. -/
def bitOrBool (a b : Bool) : Bool :=
  (a.toNat ||| b.toNat) != 0

/-- Text left in `buffer` by `snprintf(buffer, size, ...)` when the complete
formatted text is `formatted`: at most `size - 1` chars are kept. -/
def snprintf (size : Nat) (formatted : String) : String :=
  ⟨formatted.data.take (size - 1)⟩

/-- Text a `%s` directive writes for a possibly null argument. -/
def percentS (nullText : String) : Option String → String
  | some s => s
  | none => nullText

/-- The block of `parse` under `#if defined(EMSESP_STANDALONE)`. -/
def standaloneEcho {A : Type} (env : Env A) (code : Nat) (output : JsonObject) : List Event :=
  [Event.serialPrint env.COLOR_YELLOW,
   Event.serialPrint "web response code: ",
   Event.serialPrintlnInt code]
  ++ (if JsonObject.size output != 0 then [Event.serialJsonPretty output] else [])
  ++ [Event.serialPrintln, Event.serialPrint env.COLOR_RESET]

/-- Lines 76 to 90 of `parse`: the logger call made for `return_code`, and the
output document as the block leaves it. -/
def logResult {A : Type} (env : Env A) (return_code : Nat) (output : JsonObject) :
    Event × JsonObject :=
  if return_code != CommandRet.OK.ordinal then
    let error :=
      if JsonObject.size output != 0 then
        snprintf 100 ("Call failed with error: "
          ++ percentS env.printfNull (JsonObject.getCString output "message")
          ++ " (" ++ env.return_code_string return_code ++ ")")
      else
        snprintf 100 ("Call failed with error code ("
          ++ env.return_code_string return_code ++ ")")
    (Event.logErr error, output)
  else
    (Event.logDebug "API command called successfully",
      if JsonObject.size output == 0 then
        JsonObject.setMember output "message" (JsonVariant.str "OK")
      else output)

/-- The method `WebAPIService::parse(request, input)`. -/
def parse {A : Type} (env : Env A) (request : AsyncWebServerRequest) (input : JsonObject) : Run :=
  -- webSettingsService.read([&](WebSettings & settings) { ... })
  let authentication := env.authenticateRequest request
  let is_admin := bitOrBool env.settings.notoken_api (env.IS_ADMIN authentication)
  -- JsonObject output = response->getRoot(), then Command::process
  let called := env.process request.url is_admin input []
  let return_code := called.1 % 256
  let logged := logResult env return_code called.2
  let calls := [Event.readBegin, Event.authenticateRequest request, Event.readEnd,
    Event.process request.url is_admin input, logged.1]
  match ret_codes[return_code]? with
  | none => { events := calls, undefined := true }
  | some code =>
    { events := calls
        ++ [Event.send { code := code, contentType := "application/json", body := logged.2 }]
        ++ (if env.EMSESP_STANDALONE then standaloneEcho env code logged.2 else [])
      undefined := false }

/-- The handler `WebAPIService::webAPIService_get(request)`: the input is a fresh document
turned into an empty object. -/
def webAPIService_get {A : Type} (env : Env A) (request : AsyncWebServerRequest) : Run :=
  let input : JsonObject := []
  parse env request input

/-- The handler `WebAPIService::webAPIService_post(request, json)`. -/
def webAPIService_post {A : Type} (env : Env A) (request : AsyncWebServerRequest)
    (json : JsonVariant) : Run :=
  if !json.isObject then
    webAPIService_get env request
  else
    let input := json.asObject
    parse env request input

/-! ## Reading a run -/

/-- The argument lists of the `Command::process` calls of a trace, in order. -/
def processCalls : List Event → List (String × Bool × JsonObject)
  | [] => []
  | Event.process path is_admin input :: rest => (path, is_admin, input) :: processCalls rest
  | _ :: rest => processCalls rest

/-- The responses handed to the transport in a trace, in order. -/
def sent : List Event → List Response
  | [] => []
  | Event.send response :: rest => response :: sent rest
  | _ :: rest => sent rest

/-- The texts passed to `logger().err` in a trace, in order. -/
def errLogged : List Event → List String
  | [] => []
  | Event.logErr text :: rest => text :: errLogged rest
  | _ :: rest => errLogged rest

/-- Whether an event is a call on the logger. -/
def Event.isLoggerCall : Event → Bool
  | Event.logErr _ => true
  | Event.logDebug _ => true
  | _ => false

/-- Whether an event is an output on the serial console. -/
def Event.isSerial : Event → Bool
  | Event.serialPrint _ => true
  | Event.serialPrintlnInt _ => true
  | Event.serialJsonPretty _ => true
  | Event.serialPrintln => true
  | _ => false

/-- The calls of a trace on the settings store, the security manager, the command
engine and the transport: calls on the logger and output on the serial console
are set aside. -/
def gatewayCalls (events : List Event) : List Event :=
  events.filter (fun e => !(e.isLoggerCall || e.isSerial))

/-! ## Sample collaborators and requests -/

/-- A sample `Command::return_code_string`. -/
def sampleCodeName : Nat → String
  | 0 => "fail"
  | 1 => "ok"
  | 2 => "not found"
  | 3 => "error"
  | 4 => "not allowed"
  | _ => "unknown"

/-- Sample collaborators: the security manager reports whether the request has
the header `Authorization: Bearer admin`, and that report is the admin claim;
the command engine answers every call with `result`. -/
def sampleEnv (notoken_api : Bool) (standalone : Bool) (result : Nat × JsonObject) : Env Bool where
  settings := { notoken_api := notoken_api }
  authenticateRequest := fun request =>
    request.headers.any (fun h => h.1 == "Authorization" && h.2 == "Bearer admin")
  IS_ADMIN := fun authentication => authentication
  process := fun _ _ _ _ => result
  return_code_string := sampleCodeName
  printfNull := "(null)"
  EMSESP_STANDALONE := standalone
  COLOR_YELLOW := "<yellow>"
  COLOR_RESET := "<reset>"

/-- A request for `/boiler/temp` without credentials. -/
def anonymousRequest : AsyncWebServerRequest :=
  { url := "/boiler/temp", params := [], headers := [] }

/-- A request for `/boiler/temp` with the admin bearer token. -/
def adminRequest : AsyncWebServerRequest :=
  { url := "/boiler/temp", params := [], headers := [("Authorization", "Bearer admin")] }

/-- A request for `/boiler/hc1/name` without credentials. -/
def nameRequest : AsyncWebServerRequest :=
  { url := "/boiler/hc1/name", params := [], headers := [] }

/-- A message of one hundred chars. -/
def longMessage : String := ⟨List.replicate 100 'a'⟩

/-! ## Auxiliary facts -/

theorem bitOrBool_eq_or (a b : Bool) : bitOrBool a b = (a || b) := by
  cases a <;> cases b <;> rfl

theorem ordinal_lt_five (c : CommandRet) : c.ordinal < 5 := by
  cases c <;> decide

theorem ordinal_mod (c : CommandRet) : c.ordinal % 256 = c.ordinal := by
  cases c <;> rfl

theorem ordinal_eq_one_iff (c : CommandRet) : c.ordinal = 1 ↔ c = CommandRet.OK := by
  cases c <;> decide

theorem ret_codes_lookup (n : Nat) (h : n < 5) : ∃ code, ret_codes[n]? = some code := by
  have hlen : n < ret_codes.length := by simpa [ret_codes] using h
  exact ⟨ret_codes[n], List.getElem?_eq_getElem hlen⟩

theorem mod_of_lt_five (n : Nat) (h : n < 5) : n % 256 = n :=
  Nat.mod_eq_of_lt (by omega)

theorem logResult_fst (A : Type) (env : Env A) (rc : Nat) (out : JsonObject) :
    (∃ text, (logResult env rc out).1 = Event.logErr text) ∨
    (∃ text, (logResult env rc out).1 = Event.logDebug text) := by
  unfold logResult
  split
  · exact Or.inl ⟨_, rfl⟩
  · exact Or.inr ⟨_, rfl⟩

theorem processCalls_logResult (A : Type) (env : Env A) (rc : Nat) (out : JsonObject)
    (rest : List Event) :
    processCalls ((logResult env rc out).1 :: rest) = processCalls rest := by
  rcases logResult_fst A env rc out with ⟨t, h⟩ | ⟨t, h⟩ <;> rw [h] <;> rfl

theorem sent_logResult (A : Type) (env : Env A) (rc : Nat) (out : JsonObject)
    (rest : List Event) :
    sent ((logResult env rc out).1 :: rest) = sent rest := by
  rcases logResult_fst A env rc out with ⟨t, h⟩ | ⟨t, h⟩ <;> rw [h] <;> rfl

theorem standaloneEcho_isSerial (A : Type) (env : Env A) (code : Nat) (out : JsonObject) :
    ∀ e ∈ standaloneEcho env code out, e.isSerial = true := by
  unfold standaloneEcho
  split <;> simp [Event.isSerial]

theorem processCalls_of_isSerial (l : List Event) (h : ∀ e ∈ l, e.isSerial = true) :
    processCalls l = [] := by
  induction l with
  | nil => rfl
  | cons e rest ih =>
    have he := h e (List.mem_cons_self _ _)
    have hrest := ih (fun x hx => h x (List.mem_cons_of_mem _ hx))
    cases e <;> simp_all [processCalls, Event.isSerial]

theorem sent_of_isSerial (l : List Event) (h : ∀ e ∈ l, e.isSerial = true) :
    sent l = [] := by
  induction l with
  | nil => rfl
  | cons e rest ih =>
    have he := h e (List.mem_cons_self _ _)
    have hrest := ih (fun x hx => h x (List.mem_cons_of_mem _ hx))
    cases e <;> simp_all [sent, Event.isSerial]

theorem errLogged_of_isSerial (l : List Event) (h : ∀ e ∈ l, e.isSerial = true) :
    errLogged l = [] := by
  induction l with
  | nil => rfl
  | cons e rest ih =>
    have he := h e (List.mem_cons_self _ _)
    have hrest := ih (fun x hx => h x (List.mem_cons_of_mem _ hx))
    cases e <;> simp_all [errLogged, Event.isSerial]

/-- The serial echo of a run: nothing unless the build defines `EMSESP_STANDALONE`. -/
theorem echo_isSerial (A : Type) (env : Env A) (code : Nat) (out : JsonObject) :
    ∀ e ∈ (if env.EMSESP_STANDALONE then standaloneEcho env code out else []),
      e.isSerial = true := by
  intro e he
  split at he
  · exact standaloneEcho_isSerial A env code out e he
  · simp at he

/-- The run of `parse` when the engine returns `rc` and `out` and the status
array holds `code` at index `rc % 256`. -/
theorem parse_of_code (A : Type) (env : Env A) (request : AsyncWebServerRequest)
    (input : JsonObject) (rc : Nat) (out : JsonObject) (code : Nat)
    (hcall : env.process request.url
      (bitOrBool env.settings.notoken_api (env.IS_ADMIN (env.authenticateRequest request)))
      input [] = (rc, out))
    (hcode : ret_codes[rc % 256]? = some code) :
    parse env request input =
      { events :=
          Event.readBegin :: Event.authenticateRequest request :: Event.readEnd ::
            Event.process request.url
              (bitOrBool env.settings.notoken_api
                (env.IS_ADMIN (env.authenticateRequest request))) input ::
            (logResult env (rc % 256) out).1 ::
            Event.send
              { code := code, contentType := "application/json", body := (logResult env (rc % 256) out).2 } ::
            (if env.EMSESP_STANDALONE then
                standaloneEcho env code (logResult env (rc % 256) out).2 else [])
        undefined := false } := by
  simp only [parse, hcall, hcode, List.cons_append, List.nil_append]

/-- The run of `parse` when the index `rc % 256` is outside the status array. -/
theorem parse_of_no_code (A : Type) (env : Env A) (request : AsyncWebServerRequest)
    (input : JsonObject) (rc : Nat) (out : JsonObject)
    (hcall : env.process request.url
      (bitOrBool env.settings.notoken_api (env.IS_ADMIN (env.authenticateRequest request)))
      input [] = (rc, out))
    (hcode : ret_codes[rc % 256]? = none) :
    parse env request input =
      { events :=
          [Event.readBegin, Event.authenticateRequest request, Event.readEnd,
            Event.process request.url
              (bitOrBool env.settings.notoken_api
                (env.IS_ADMIN (env.authenticateRequest request))) input,
            (logResult env (rc % 256) out).1]
        undefined := true } := by
  simp only [parse, hcall, hcode]

/-- Every run of `parse` calls `Command::process` exactly once, with the request
path, the flag computed from the settings and the authentication, and `input`. -/
theorem processCalls_parse (A : Type) (env : Env A) (request : AsyncWebServerRequest)
    (input : JsonObject) :
    processCalls (parse env request input).events =
      [(request.url,
        bitOrBool env.settings.notoken_api (env.IS_ADMIN (env.authenticateRequest request)),
        input)] := by
  rcases hcall : env.process request.url
      (bitOrBool env.settings.notoken_api (env.IS_ADMIN (env.authenticateRequest request)))
      input [] with ⟨rc, out⟩
  rcases hcode : ret_codes[rc % 256]? with _ | code
  · rw [parse_of_no_code A env request input rc out hcall hcode]
    simp only [processCalls, processCalls_logResult]
  · rw [parse_of_code A env request input rc out code hcall hcode]
    simp only [processCalls, processCalls_logResult]
    rw [processCalls_of_isSerial _ (echo_isSerial A env code _)]

/-- The responses sent by a run of `parse` whose status lookup is in bounds:
exactly one, carrying the looked-up status and the document left by lines 76-90. -/
theorem sent_parse_of_code (A : Type) (env : Env A) (request : AsyncWebServerRequest)
    (input : JsonObject) (rc : Nat) (out : JsonObject) (code : Nat)
    (hcall : env.process request.url
      (bitOrBool env.settings.notoken_api (env.IS_ADMIN (env.authenticateRequest request)))
      input [] = (rc, out))
    (hcode : ret_codes[rc % 256]? = some code) :
    sent (parse env request input).events =
      [{ code := code, contentType := "application/json", body := (logResult env (rc % 256) out).2 }] := by
  rw [parse_of_code A env request input rc out code hcall hcode]
  simp only [sent, sent_logResult]
  rw [sent_of_isSerial _ (echo_isSerial A env code _)]

/-- The error texts logged by a run of `parse`: those of its one logger call. -/
theorem errLogged_parse (A : Type) (env : Env A) (request : AsyncWebServerRequest)
    (input : JsonObject) (rc : Nat) (out : JsonObject)
    (hcall : env.process request.url
      (bitOrBool env.settings.notoken_api (env.IS_ADMIN (env.authenticateRequest request)))
      input [] = (rc, out)) :
    errLogged (parse env request input).events = errLogged [(logResult env (rc % 256) out).1] := by
  rcases hcode : ret_codes[rc % 256]? with _ | code
  · rw [parse_of_no_code A env request input rc out hcall hcode]
    simp only [errLogged]
  · rw [parse_of_code A env request input rc out code hcall hcode]
    have hecho := errLogged_of_isSerial _ (echo_isSerial A env code (logResult env (rc % 256) out).2)
    rcases logResult_fst A env (rc % 256) out with ⟨t, h⟩ | ⟨t, h⟩ <;>
      simp only [h, errLogged, hecho]

/-- Lines 76-90 leave the output document as it is unless the code is OK and the
document is empty. -/
theorem logResult_snd (A : Type) (env : Env A) (rc : Nat) (out : JsonObject)
    (h : ¬ (rc = CommandRet.OK.ordinal ∧ JsonObject.size out = 0)) :
    (logResult env rc out).2 = out := by
  unfold logResult
  by_cases hrc : rc = CommandRet.OK.ordinal
  · have hsize : JsonObject.size out ≠ 0 := fun h0 => h ⟨hrc, h0⟩
    simp [hrc, hsize]
  · simp [hrc]

/-- Lines 76-90 on OK with an empty document: the default message is written. -/
theorem logResult_ok_empty (A : Type) (env : Env A) (out : JsonObject)
    (h : JsonObject.size out = 0) :
    (logResult env CommandRet.OK.ordinal out).2 = [("message", JsonVariant.str "OK")] := by
  have hout : out = [] := List.length_eq_zero.mp h
  subst hout
  simp [logResult, JsonObject.size, JsonObject.setMember]

/-- An object in which a member is found has a member. -/
theorem size_ne_zero_of_getMember (out : JsonObject) (key : String) (v : JsonVariant)
    (h : JsonObject.getMember out key = some v) : JsonObject.size out ≠ 0 := by
  intro h0
  have hout : out = [] := List.length_eq_zero.mp h0
  subst hout
  simp [JsonObject.getMember] at h

/-- A text of at most `size - 1` chars goes through `snprintf` whole. -/
theorem snprintf_of_fits (size : Nat) (text : String) (h : text.length ≤ size - 1) :
    snprintf size text = text := by
  unfold snprintf
  have : text.data.take (size - 1) = text.data := List.take_of_length_le h
  rw [this]

/-- The buffer never holds more than `size - 1` chars. -/
theorem snprintf_length (size : Nat) (text : String) :
    (snprintf size text).length ≤ size - 1 := by
  unfold snprintf
  show (text.data.take (size - 1)).length ≤ size - 1
  rw [List.length_take]
  exact Nat.min_le_left _ _

/-- On a result other than OK with a non-empty output document that has no
string member `message`, the first format is used all the same, its `%s` argument
being the null pointer. -/
theorem errLogged_null_message (A : Type) (env : Env A) (request : AsyncWebServerRequest)
    (input : JsonObject) (rc : Nat) (out : JsonObject)
    (hcall : env.process request.url
      (bitOrBool env.settings.notoken_api (env.IS_ADMIN (env.authenticateRequest request)))
      input [] = (rc, out))
    (hfail : rc % 256 ≠ CommandRet.OK.ordinal)
    (hsize : JsonObject.size out ≠ 0)
    (hnull : JsonObject.getCString out "message" = none) :
    errLogged (parse env request input).events =
      [snprintf 100 ("Call failed with error: " ++ env.printfNull
        ++ " (" ++ env.return_code_string (rc % 256) ++ ")")] := by
  rw [errLogged_parse A env request input rc out hcall]
  simp [logResult, hfail, hsize, hnull, percentS, errLogged]

/-! ## The status table -/

/-- C1: the status array of `parse` covers the five `CommandRet` values: the
ordinal of each is a valid `uint8_t` index inside the five-element array, and the
lookup gives OK 200, FAIL 400, NOT_FOUND 400, ERROR 400, NOT_ALLOWED 401. -/
theorem ret_codes_total :
    ret_codes.length = 5 ∧
    (∀ c : CommandRet, c.ordinal % 256 = c.ordinal ∧ c.ordinal < ret_codes.length) ∧
    ret_codes[CommandRet.OK.ordinal]? = some 200 ∧
    ret_codes[CommandRet.FAIL.ordinal]? = some 400 ∧
    ret_codes[CommandRet.NOT_FOUND.ordinal]? = some 400 ∧
    ret_codes[CommandRet.ERROR.ordinal]? = some 400 ∧
    ret_codes[CommandRet.NOT_ALLOWED.ordinal]? = some 401 := by
  refine ⟨rfl, ?_, rfl, rfl, rfl, rfl, rfl⟩
  intro c
  cases c <;> exact ⟨rfl, by decide⟩

/-! ## Privilege and input -/

/-- C2: the privilege flag `parse` passes to `Command::process` is
`settings.notoken_api` or `IS_ADMIN(authenticateRequest(request))`; so it is true
whenever the no-token override is set, and false when the override is off and the
authentication carries no admin claim. -/
theorem parse_privilege_flag (A : Type) (env : Env A) (request : AsyncWebServerRequest)
    (input : JsonObject) :
    processCalls (parse env request input).events =
      [(request.url,
        (env.settings.notoken_api || env.IS_ADMIN (env.authenticateRequest request)),
        input)] ∧
    (env.settings.notoken_api = true →
      ∀ call ∈ processCalls (parse env request input).events, call.2.1 = true) ∧
    (env.settings.notoken_api = false →
      env.IS_ADMIN (env.authenticateRequest request) = false →
      ∀ call ∈ processCalls (parse env request input).events, call.2.1 = false) := by
  have h := processCalls_parse A env request input
  rw [bitOrBool_eq_or] at h
  refine ⟨h, ?_, ?_⟩
  · intro hset call hcall
    rw [h, hset] at hcall
    simp at hcall
    rw [hcall]
  · intro hset hadmin call hcall
    rw [h, hset, hadmin] at hcall
    simp at hcall
    rw [hcall]

/-- The flag at sample requests: with the override set an anonymous request is
dispatched as admin; with the override off it is not, and a request with the admin
token is. -/
theorem parse_privilege_flag_witness :
    (∀ call ∈ processCalls
        (parse (sampleEnv true false (1, [])) anonymousRequest []).events, call.2.1 = true) ∧
    (∀ call ∈ processCalls
        (parse (sampleEnv false false (1, [])) anonymousRequest []).events, call.2.1 = false) ∧
    processCalls (parse (sampleEnv false false (1, [])) adminRequest []).events
      = [("/boiler/temp", true, [])] :=
  ⟨(parse_privilege_flag Bool (sampleEnv true false (1, [])) anonymousRequest []).2.1 rfl,
   (parse_privilege_flag Bool (sampleEnv false false (1, [])) anonymousRequest []).2.2 rfl rfl,
   (parse_privilege_flag Bool (sampleEnv false false (1, [])) adminRequest []).1⟩

/-- C3: a GET request is dispatched with the empty object as input, whatever the
request. -/
theorem get_input_empty (A : Type) (env : Env A) (request : AsyncWebServerRequest) :
    processCalls (webAPIService_get env request).events =
      [(request.url,
        (env.settings.notoken_api || env.IS_ADMIN (env.authenticateRequest request)),
        ([] : JsonObject))] ∧
    (processCalls (webAPIService_get env request).events).map
      (fun call => JsonObject.size call.2.2) = [0] := by
  have h : processCalls (webAPIService_get env request).events =
      [(request.url,
        (env.settings.notoken_api || env.IS_ADMIN (env.authenticateRequest request)),
        ([] : JsonObject))] := by
    unfold webAPIService_get
    rw [processCalls_parse, bitOrBool_eq_or]
  refine ⟨h, ?_⟩
  rw [h]
  rfl

/-- C4: with a body that is not a JSON object, `webAPIService_post` runs exactly
as `webAPIService_get` on the same request: the whole run is the same, so the
engine gets the same path, the same flag and the empty input, and the same
response is sent. -/
theorem post_non_object_eq_get (A : Type) (env : Env A) (request : AsyncWebServerRequest)
    (json : JsonVariant) (hbody : json.isObject = false) :
    webAPIService_post env request json = webAPIService_get env request ∧
    processCalls (webAPIService_post env request json).events =
      [(request.url,
        (env.settings.notoken_api || env.IS_ADMIN (env.authenticateRequest request)),
        ([] : JsonObject))] ∧
    sent (webAPIService_post env request json).events =
      sent (webAPIService_get env request).events := by
  have h : webAPIService_post env request json = webAPIService_get env request := by
    simp [webAPIService_post, hbody]
  refine ⟨h, ?_, by rw [h]⟩
  rw [h]
  unfold webAPIService_get
  rw [processCalls_parse, bitOrBool_eq_or]

/-- A PATCH of `/boiler/hc1/name` whose body is a plain string runs as the GET. -/
theorem post_non_object_eq_get_witness :
    (JsonVariant.str "kitchen").isObject = false ∧
    webAPIService_post (sampleEnv false false (2, [])) nameRequest (JsonVariant.str "kitchen")
      = webAPIService_get (sampleEnv false false (2, [])) nameRequest ∧
    processCalls (webAPIService_post (sampleEnv false false (2, [])) nameRequest
        (JsonVariant.str "kitchen")).events
      = [("/boiler/hc1/name", false, [])] :=
  ⟨rfl,
   (post_non_object_eq_get Bool (sampleEnv false false (2, [])) nameRequest
      (JsonVariant.str "kitchen") rfl).1,
   (post_non_object_eq_get Bool (sampleEnv false false (2, [])) nameRequest
      (JsonVariant.str "kitchen") rfl).2.1⟩

/-- C5: with a JSON object as body, `webAPIService_post` dispatches exactly that
object as input: the members are passed on as they are. -/
theorem post_object_input_verbatim (A : Type) (env : Env A) (request : AsyncWebServerRequest)
    (members : List (String × JsonVariant)) :
    processCalls (webAPIService_post env request (JsonVariant.obj members)).events =
      [(request.url,
        (env.settings.notoken_api || env.IS_ADMIN (env.authenticateRequest request)),
        members)] := by
  have h : webAPIService_post env request (JsonVariant.obj members)
      = parse env request members := by
    simp [webAPIService_post, JsonVariant.isObject, JsonVariant.asObject]
  rw [h, processCalls_parse, bitOrBool_eq_or]

/-! ## The response -/

/-- C6: when `Command::process` returns OK and leaves the output document empty,
`parse` sends one response, with status 200 and the one-member body
`message: "OK"`. -/
theorem ok_empty_default_message (A : Type) (env : Env A) (request : AsyncWebServerRequest)
    (input : JsonObject) (out : JsonObject)
    (hcall : env.process request.url
      (bitOrBool env.settings.notoken_api (env.IS_ADMIN (env.authenticateRequest request)))
      input [] = (CommandRet.OK.ordinal, out))
    (hempty : JsonObject.size out = 0) :
    sent (parse env request input).events =
      [{ code := 200, contentType := "application/json",
         body := [("message", JsonVariant.str "OK")] }] := by
  rw [sent_parse_of_code A env request input CommandRet.OK.ordinal out 200 hcall rfl]
  have h := logResult_ok_empty A env out hempty
  rw [ordinal_mod, h]

/-- A POST of `/boiler/temp` with body `value: 60` under the no-token override,
answered OK with an empty document, is sent status 200 and `message: "OK"`. -/
theorem ok_empty_default_message_witness :
    sent (parse (sampleEnv true false (1, [])) anonymousRequest
        [("value", JsonVariant.int 60)]).events =
      [{ code := 200, contentType := "application/json",
         body := [("message", JsonVariant.str "OK")] }] :=
  ok_empty_default_message Bool (sampleEnv true false (1, [])) anonymousRequest
    [("value", JsonVariant.int 60)] [] rfl rfl

/-- C7: for each of the five result codes `parse` sends one response whose
status is 200, 400 or 401, and is 200 exactly when the code is OK; a code other
than OK with an empty output document is answered 400 or 401. -/
theorem status_of_result (A : Type) (env : Env A) (request : AsyncWebServerRequest)
    (input : JsonObject) (c : CommandRet) (out : JsonObject)
    (hcall : env.process request.url
      (bitOrBool env.settings.notoken_api (env.IS_ADMIN (env.authenticateRequest request)))
      input [] = (c.ordinal, out)) :
    ∃ response, sent (parse env request input).events = [response] ∧
      (response.code = 200 ∨ response.code = 400 ∨ response.code = 401) ∧
      (response.code = 200 ↔ c = CommandRet.OK) ∧
      (c ≠ CommandRet.OK → JsonObject.size out = 0 →
        response.code = 400 ∨ response.code = 401) := by
  cases c
  · refine ⟨_, sent_parse_of_code A env request input _ out 400 hcall rfl, ?_, ?_, ?_⟩ <;> simp
  · refine ⟨_, sent_parse_of_code A env request input _ out 200 hcall rfl, ?_, ?_, ?_⟩ <;> simp
  · refine ⟨_, sent_parse_of_code A env request input _ out 400 hcall rfl, ?_, ?_, ?_⟩ <;> simp
  · refine ⟨_, sent_parse_of_code A env request input _ out 400 hcall rfl, ?_, ?_, ?_⟩ <;> simp
  · refine ⟨_, sent_parse_of_code A env request input _ out 401 hcall rfl, ?_, ?_, ?_⟩ <;> simp

/-- An anonymous GET refused by the engine with NOT_ALLOWED and no output is sent
one response, whose status is not 200. -/
theorem status_of_result_witness :
    ∃ response,
      sent (parse (sampleEnv false false (4, [])) anonymousRequest []).events = [response] ∧
      (response.code = 200 ∨ response.code = 400 ∨ response.code = 401) ∧
      (response.code = 200 ↔ CommandRet.NOT_ALLOWED = CommandRet.OK) ∧
      (CommandRet.NOT_ALLOWED ≠ CommandRet.OK → JsonObject.size [] = 0 →
        response.code = 400 ∨ response.code = 401) :=
  status_of_result Bool (sampleEnv false false (4, [])) anonymousRequest []
    CommandRet.NOT_ALLOWED [] rfl

/-- C8: unless the result code is OK and the output document is empty, the body
`parse` sends is the output document exactly as `Command::process` left it, for
each of the five codes and every document; neither the error text nor the read of
`output["message"]` adds anything to it. -/
theorem body_is_engine_output (A : Type) (env : Env A) (request : AsyncWebServerRequest)
    (input : JsonObject) (c : CommandRet) (out : JsonObject)
    (hcall : env.process request.url
      (bitOrBool env.settings.notoken_api (env.IS_ADMIN (env.authenticateRequest request)))
      input [] = (c.ordinal, out))
    (hcase : ¬ (c = CommandRet.OK ∧ JsonObject.size out = 0)) :
    ∃ code, ret_codes[c.ordinal]? = some code ∧
      sent (parse env request input).events =
        [{ code := code, contentType := "application/json", body := out }] := by
  obtain ⟨code, hcode⟩ := ret_codes_lookup c.ordinal (ordinal_lt_five c)
  refine ⟨code, hcode, ?_⟩
  have hcode256 : ret_codes[c.ordinal % 256]? = some code := by rw [ordinal_mod]; exact hcode
  rw [sent_parse_of_code A env request input c.ordinal out code hcall hcode256]
  have hcase256 : ¬ (c.ordinal % 256 = CommandRet.OK.ordinal ∧ JsonObject.size out = 0) := by
    rw [ordinal_mod]
    intro h
    exact hcase ⟨(ordinal_eq_one_iff c).mp h.1, h.2⟩
  rw [logResult_snd A env (c.ordinal % 256) out hcase256]

/-- An anonymous GET of `/boiler/temp` answered NOT_FOUND with an empty document is
sent status 400 and the empty body. -/
theorem body_is_engine_output_witness :
    sent (parse (sampleEnv false false (2, [])) anonymousRequest []).events =
      [{ code := 400, contentType := "application/json", body := [] }] := by
  obtain ⟨code, hcode, hsent⟩ :=
    body_is_engine_output Bool (sampleEnv false false (2, [])) anonymousRequest []
      CommandRet.NOT_FOUND [] rfl (by decide)
  have h400 : code = 400 := (Option.some.inj hcode).symm
  rw [hsent, h400]

/-! ## The logged error text -/

/-- C9, as the code has it: for a result code other than OK `parse` makes one
`logger().err` call. Its text is what fits the 100-char buffer, that is the first
99 chars, of `Call failed with error: MESSAGE (NAME)` when the output document
holds a string member `message`, and of `Call failed with error code (NAME)` when
the output document is empty, `NAME` being `return_code_string(return_code)`; a
text of at most 99 chars is logged whole. -/
theorem error_text_logged (A : Type) (env : Env A) (request : AsyncWebServerRequest)
    (input : JsonObject) (c : CommandRet) (out : JsonObject)
    (hcall : env.process request.url
      (bitOrBool env.settings.notoken_api (env.IS_ADMIN (env.authenticateRequest request)))
      input [] = (c.ordinal, out))
    (hfail : c ≠ CommandRet.OK) :
    (∀ message, JsonObject.getMember out "message" = some (JsonVariant.str message) →
      errLogged (parse env request input).events =
        [snprintf 100 ("Call failed with error: " ++ message
          ++ " (" ++ env.return_code_string c.ordinal ++ ")")]) ∧
    (JsonObject.size out = 0 →
      errLogged (parse env request input).events =
        [snprintf 100 ("Call failed with error code ("
          ++ env.return_code_string c.ordinal ++ ")")]) ∧
    (∀ text : String, snprintf 100 text = ⟨text.data.take 99⟩) ∧
    (∀ text : String, text.length ≤ 99 → snprintf 100 text = text) := by
  have hne : c.ordinal ≠ CommandRet.OK.ordinal := fun h => hfail ((ordinal_eq_one_iff c).mp h)
  have hlog := errLogged_parse A env request input c.ordinal out hcall
  rw [ordinal_mod] at hlog
  refine ⟨?_, ?_, fun _ => rfl, fun text h => snprintf_of_fits 100 text h⟩
  · intro message hmsg
    have hsize := size_ne_zero_of_getMember out "message" _ hmsg
    rw [hlog]
    simp [logResult, hne, hsize, JsonObject.getCString, hmsg, JsonVariant.asCString,
      percentS, errLogged]
  · intro hsize
    rw [hlog]
    simp [logResult, hne, hsize, errLogged]

/-- A refused call whose message fits the buffer, and one without output: the
texts are logged whole. -/
theorem error_text_logged_witness :
    errLogged (parse (sampleEnv false false (4, [("message", JsonVariant.str "no token")]))
        anonymousRequest []).events
      = ["Call failed with error: no token (not allowed)"] ∧
    errLogged (parse (sampleEnv false false (2, [])) anonymousRequest []).events
      = ["Call failed with error code (not found)"] :=
  ⟨(error_text_logged Bool (sampleEnv false false (4, [("message", JsonVariant.str "no token")]))
      anonymousRequest [] CommandRet.NOT_ALLOWED [("message", JsonVariant.str "no token")]
      rfl (by decide)).1 "no token" rfl,
   (error_text_logged Bool (sampleEnv false false (2, [])) anonymousRequest []
      CommandRet.NOT_FOUND [] rfl (by decide)).2.1 rfl⟩

/-- C9 fails as stated: with FAIL and a message of 100 chars the text logged is
24 chars of prefix and the first 75 chars of the message, not the whole
`Call failed with error: MESSAGE (fail)`. -/
theorem long_message_is_cut :
    errLogged (parse (sampleEnv false false (0, [("message", JsonVariant.str longMessage)]))
        anonymousRequest []).events
      = ["Call failed with error: " ++ ⟨List.replicate 75 'a'⟩] ∧
    errLogged (parse (sampleEnv false false (0, [("message", JsonVariant.str longMessage)]))
        anonymousRequest []).events
      ≠ ["Call failed with error: " ++ longMessage ++ " (" ++ sampleCodeName 0 ++ ")"] := by
  constructor
  · decide
  · decide

/-! ## The order of the calls -/

/-- In a trace of the shape open, authenticate, close, process, logger call, send,
serial echo, the calls left when logger and serial console are set aside. -/
theorem gatewayCalls_of_shape (request : AsyncWebServerRequest) (path : String)
    (is_admin : Bool) (input : JsonObject) (log : Event) (response : Response)
    (echo : List Event) (hlog : log.isLoggerCall = true)
    (hecho : ∀ e ∈ echo, e.isSerial = true) :
    gatewayCalls ([Event.readBegin, Event.authenticateRequest request, Event.readEnd,
        Event.process path is_admin input, log, Event.send response] ++ echo) =
      [Event.readBegin, Event.authenticateRequest request, Event.readEnd,
        Event.process path is_admin input, Event.send response] := by
  have hnil : echo.filter (fun e => !(e.isLoggerCall || e.isSerial)) = [] := by
    rw [List.filter_eq_nil_iff]
    intro e he
    simp [hecho e he]
  unfold gatewayCalls
  rw [List.filter_append, hnil]
  cases log <;>
    first
    | (simp [Event.isLoggerCall] at hlog; done)
    | simp [List.filter, Event.isLoggerCall, Event.isSerial]

/-- The calls of `parse` when the engine answers its call with one of the five
codes. -/
theorem parse_call_sequence (A : Type) (env : Env A) (request : AsyncWebServerRequest)
    (input : JsonObject)
    (hcode : (env.process request.url
      (bitOrBool env.settings.notoken_api (env.IS_ADMIN (env.authenticateRequest request)))
      input []).1 < 5) :
    ∃ is_admin log response echo,
      parse env request input =
        { events := [Event.readBegin, Event.authenticateRequest request, Event.readEnd,
            Event.process request.url is_admin input, log, Event.send response] ++ echo
          undefined := false } ∧
      log.isLoggerCall = true ∧ (∀ e ∈ echo, e.isSerial = true) ∧
      (env.EMSESP_STANDALONE = false → echo = []) ∧
      gatewayCalls (parse env request input).events =
        [Event.readBegin, Event.authenticateRequest request, Event.readEnd,
          Event.process request.url is_admin input, Event.send response] := by
  rcases hcall : env.process request.url
      (bitOrBool env.settings.notoken_api (env.IS_ADMIN (env.authenticateRequest request)))
      input [] with ⟨rc, out⟩
  have hlt : rc < 5 := by
    rw [hcall] at hcode
    exact hcode
  obtain ⟨code, hlookup⟩ := ret_codes_lookup rc hlt
  rw [← mod_of_lt_five rc hlt] at hlookup
  have hrun := parse_of_code A env request input rc out code hcall hlookup
  have hlog : (logResult env (rc % 256) out).1.isLoggerCall = true := by
    rcases logResult_fst A env (rc % 256) out with ⟨t, h⟩ | ⟨t, h⟩ <;> rw [h] <;> rfl
  have hecho := echo_isSerial A env code (logResult env (rc % 256) out).2
  refine ⟨_, (logResult env (rc % 256) out).1, _,
    (if env.EMSESP_STANDALONE then
      standaloneEcho env code (logResult env (rc % 256) out).2 else []),
    hrun, hlog, hecho, ?_, ?_⟩
  · intro h
    simp [h]
  · rw [hrun]
    exact gatewayCalls_of_shape request request.url _ input _ _ _ hlog hecho

/-- C10: when the engine answers the call of the request handled with one of the
five codes, the calls of `webAPIService_get` and of `webAPIService_post` (object or
other body) on the settings store, the security manager, the command engine and
the transport are exactly, in this order: the settings read is opened, the request
is authenticated, the settings read is closed, `Command::process` is called once,
the response is sent once. The whole run is that sequence with the one logger call
of `parse` between `Command::process` and the send, followed by nothing, but for
the serial console echo of a build with `EMSESP_STANDALONE`. -/
theorem handler_call_sequence (A : Type) (env : Env A) (request : AsyncWebServerRequest)
    (json : JsonVariant)
    (hget : (env.process request.url
      (bitOrBool env.settings.notoken_api (env.IS_ADMIN (env.authenticateRequest request)))
      [] []).1 < 5)
    (hpost : (env.process request.url
      (bitOrBool env.settings.notoken_api (env.IS_ADMIN (env.authenticateRequest request)))
      (if json.isObject then json.asObject else []) []).1 < 5) :
    (∃ is_admin log response echo,
      webAPIService_get env request =
        { events := [Event.readBegin, Event.authenticateRequest request, Event.readEnd,
            Event.process request.url is_admin [], log, Event.send response] ++ echo
          undefined := false } ∧
      log.isLoggerCall = true ∧ (∀ e ∈ echo, e.isSerial = true) ∧
      (env.EMSESP_STANDALONE = false → echo = []) ∧
      gatewayCalls (webAPIService_get env request).events =
        [Event.readBegin, Event.authenticateRequest request, Event.readEnd,
          Event.process request.url is_admin [], Event.send response]) ∧
    (∃ is_admin log response echo,
      webAPIService_post env request json =
        { events := [Event.readBegin, Event.authenticateRequest request, Event.readEnd,
            Event.process request.url is_admin (if json.isObject then json.asObject else []),
            log, Event.send response] ++ echo
          undefined := false } ∧
      log.isLoggerCall = true ∧ (∀ e ∈ echo, e.isSerial = true) ∧
      (env.EMSESP_STANDALONE = false → echo = []) ∧
      gatewayCalls (webAPIService_post env request json).events =
        [Event.readBegin, Event.authenticateRequest request, Event.readEnd,
          Event.process request.url is_admin (if json.isObject then json.asObject else []),
          Event.send response]) := by
  constructor
  · exact parse_call_sequence A env request [] hget
  · have h : webAPIService_post env request json
        = parse env request (if json.isObject then json.asObject else []) := by
      cases hobj : json.isObject <;> simp [webAPIService_post, webAPIService_get, hobj]
    rw [h]
    exact parse_call_sequence A env request _ hpost

/-- The call sequence of a GET and of a POST with a string body at a sample
engine that answers NOT_FOUND. -/
theorem handler_call_sequence_witness :
    (∃ is_admin log response echo,
      webAPIService_get (sampleEnv false false (2, [])) anonymousRequest =
        { events := [Event.readBegin, Event.authenticateRequest anonymousRequest,
            Event.readEnd, Event.process anonymousRequest.url is_admin [], log,
            Event.send response] ++ echo
          undefined := false } ∧
      log.isLoggerCall = true ∧ (∀ e ∈ echo, e.isSerial = true) ∧
      ((sampleEnv false false (2, [])).EMSESP_STANDALONE = false → echo = []) ∧
      gatewayCalls (webAPIService_get (sampleEnv false false (2, [])) anonymousRequest).events =
        [Event.readBegin, Event.authenticateRequest anonymousRequest, Event.readEnd,
          Event.process anonymousRequest.url is_admin [], Event.send response]) ∧
    (∃ is_admin log response echo,
      webAPIService_post (sampleEnv false false (2, [])) anonymousRequest
          (JsonVariant.str "kitchen") =
        { events := [Event.readBegin, Event.authenticateRequest anonymousRequest,
            Event.readEnd,
            Event.process anonymousRequest.url is_admin
              (if (JsonVariant.str "kitchen").isObject
                then (JsonVariant.str "kitchen").asObject else []),
            log, Event.send response] ++ echo
          undefined := false } ∧
      log.isLoggerCall = true ∧ (∀ e ∈ echo, e.isSerial = true) ∧
      ((sampleEnv false false (2, [])).EMSESP_STANDALONE = false → echo = []) ∧
      gatewayCalls (webAPIService_post (sampleEnv false false (2, [])) anonymousRequest
          (JsonVariant.str "kitchen")).events =
        [Event.readBegin, Event.authenticateRequest anonymousRequest, Event.readEnd,
          Event.process anonymousRequest.url is_admin
            (if (JsonVariant.str "kitchen").isObject
              then (JsonVariant.str "kitchen").asObject else []),
          Event.send response]) :=
  handler_call_sequence Bool (sampleEnv false false (2, [])) anonymousRequest
    (JsonVariant.str "kitchen") (by decide : 2 < 5) (by decide : 2 < 5)

/-- The run of an anonymous GET of `/boiler/temp` answered NOT_FOUND with an empty
document, call by call, and its calls with the logger set aside. -/
theorem get_not_found_events :
    (webAPIService_get (sampleEnv false false (2, [])) anonymousRequest).events =
      [Event.readBegin, Event.authenticateRequest anonymousRequest, Event.readEnd,
        Event.process "/boiler/temp" false [],
        Event.logErr "Call failed with error code (not found)",
        Event.send { code := 400, contentType := "application/json", body := [] }] ∧
    gatewayCalls (webAPIService_get (sampleEnv false false (2, [])) anonymousRequest).events =
      [Event.readBegin, Event.authenticateRequest anonymousRequest, Event.readEnd,
        Event.process "/boiler/temp" false [],
        Event.send { code := 400, contentType := "application/json", body := [] }] :=
  ⟨rfl, rfl⟩

end emsesp
